import Mathlib

/-!
Shallow embedding of the libcaer event-packet core: `polarity.h` and `imu9.h`
(Polarity and IMU9 event records and packets), together with the parts of the
common packet header that those two files use.  Multi-byte fields are stored in
a fixed little-endian wire order; the model works at the level of values, where
a store followed by a matching load is the identity, so the byte-order
conversion functions are identities on values.  32-bit words are modelled as
`Nat` (with explicit truncation where the C types truncate), signed 32/64-bit
integers as `Int`.
-/

/-- Byte-order conversion `htole32` on unsigned 32-bit words: identity on
values in this model (fixed little-endian wire order). -/
def htole32 (x : Nat) : Nat := x

/-- Byte-order conversion `le32toh` on unsigned 32-bit words: identity on
values in this model. -/
def le32toh (x : Nat) : Nat := x

/-- Byte-order conversion `htole32` applied to the signed 32-bit timestamp
field: identity on values in this model. -/
def htole32i (x : Int) : Int := x

/-- Byte-order conversion `le32toh` applied to the signed 32-bit timestamp
field: identity on values in this model. -/
def le32tohi (x : Int) : Int := x

/-- C cast macro `U16T`: truncation to an unsigned 16-bit value. -/
def U16T (x : Nat) : Nat := x % 2 ^ 16

/-- C cast macro `U32T` applied to a C `bool`: `false ↦ 0`, `true ↦ 1`. -/
def U32TofBool (b : Bool) : Nat := if b then 1 else 0

/-- C cast macro `U64T` applied to an unsigned value: reduction mod `2^64`. -/
def U64T (x : Nat) : Nat := x % 2 ^ 64

/-- C cast macro `U64T` applied to a signed 32-bit value: the two's-complement
64-bit bit pattern of the (sign-extended) value. -/
def U64TofInt32 (x : Int) : Nat := (x % 2 ^ 64).toNat

/-- C cast macro `I64T`: reinterpretation of a 64-bit unsigned pattern as a
signed 64-bit integer. -/
def I64T (x : Nat) : Int :=
  if x % 2 ^ 64 < 2 ^ 63 then ((x % 2 ^ 64 : Nat) : Int)
  else ((x % 2 ^ 64 : Nat) : Int) - 2 ^ 64

/-- Modelled from the spec: `common.h` is not part of the excerpt; per §3 the
validity bit is always bit 0 of the record's first packed field, so
`VALID_MARK_SHIFT = 0`. -/
def VALID_MARK_SHIFT : Nat := 0

/-- Modelled from the spec: mask of the single validity bit (bit 0). -/
def VALID_MARK_MASK : Nat := 0x00000001

/-- Modelled from the spec: `composeTimestamp64` (§4.1) shifts the overflow
counter left by 31 bits, so `TS_OVERFLOW_SHIFT = 31`. -/
def TS_OVERFLOW_SHIFT : Nat := 31

/-- Modelled from the spec: the common event packet header (§3), an external
collaborator of the excerpt, restricted to the fields the two event types use.
The counter fields are `int32_t` values modelled as `Int`; the overflow
counter is a `uint32` (per the `composeTimestamp64` signature in §4.1)
modelled as a `Nat` truncated to 32 bits by its getter. -/
structure caer_event_packet_header where
  eventNumber : Int
  eventValid : Int
  eventCapacity : Int
  eventTSOverflow : Nat
deriving Repr, DecidableEq

/-- Modelled from the spec: header getter for `eventNumber`. -/
def caerEventPacketHeaderGetEventNumber (header : caer_event_packet_header) : Int :=
  header.eventNumber

/-- Modelled from the spec: header setter for `eventNumber`. -/
def caerEventPacketHeaderSetEventNumber (header : caer_event_packet_header)
    (eventNumber : Int) : caer_event_packet_header :=
  { header with eventNumber := eventNumber }

/-- Modelled from the spec: header getter for `eventValid`. -/
def caerEventPacketHeaderGetEventValid (header : caer_event_packet_header) : Int :=
  header.eventValid

/-- Modelled from the spec: header setter for `eventValid`. -/
def caerEventPacketHeaderSetEventValid (header : caer_event_packet_header)
    (eventValid : Int) : caer_event_packet_header :=
  { header with eventValid := eventValid }

/-- Modelled from the spec: header getter for `eventCapacity`. -/
def caerEventPacketHeaderGetEventCapacity (header : caer_event_packet_header) : Int :=
  header.eventCapacity

/-- Modelled from the spec: header getter for the `uint32` timestamp-overflow
counter. -/
def caerEventPacketHeaderGetEventTSOverflow (header : caer_event_packet_header) : Nat :=
  header.eventTSOverflow % 2 ^ 32

/-! Polarity events (`polarity.h`). -/

def POLARITY_SHIFT : Nat := 1

def POLARITY_MASK : Nat := 0x00000001

def Y_ADDR_SHIFT : Nat := 2

def Y_ADDR_MASK : Nat := 0x00007FFF

def X_ADDR_SHIFT : Nat := 17

def X_ADDR_MASK : Nat := 0x00007FFF

/-- Polarity event record: packed 32-bit `data` word (validity, polarity, Y, X)
and a signed 32-bit timestamp. -/
structure caer_polarity_event where
  data : Nat
  timestamp : Int
deriving Repr, DecidableEq

/-- Polarity event packet: common header plus the contiguous events array. -/
structure caer_polarity_event_packet where
  packetHeader : caer_event_packet_header
  events : List caer_polarity_event
deriving Repr, DecidableEq

/-- caerPolarityEventPacketGetEvent: bounds-checked indexed access; out of
range logs at critical severity and returns NULL (modelled as `none`). -/
def caerPolarityEventPacketGetEvent (packet : caer_polarity_event_packet)
    (n : Int) : Option caer_polarity_event :=
  if n < 0 ∨ caerEventPacketHeaderGetEventCapacity packet.packetHeader ≤ n then
    none
  else
    packet.events[n.toNat]?

def caerPolarityEventGetTimestamp (event : caer_polarity_event) : Int :=
  le32tohi event.timestamp

def caerPolarityEventGetTimestamp64 (event : caer_polarity_event)
    (packet : caer_polarity_event_packet) : Int :=
  I64T ((U64T (caerEventPacketHeaderGetEventTSOverflow packet.packetHeader) <<<
      TS_OVERFLOW_SHIFT) |||
    U64TofInt32 (caerPolarityEventGetTimestamp event))

/-- caerPolarityEventSetTimestamp: a negative timestamp is refused (logged at
critical severity, no state change). -/
def caerPolarityEventSetTimestamp (event : caer_polarity_event)
    (timestamp : Int) : caer_polarity_event :=
  if timestamp < 0 then
    event
  else
    { event with timestamp := htole32i timestamp }

def caerPolarityEventIsValid (event : caer_polarity_event) : Bool :=
  ((le32toh event.data >>> VALID_MARK_SHIFT) &&& VALID_MARK_MASK) != 0

/-- caerPolarityEventValidate: the C function mutates the record and the
packet's header in place; the model returns the updated record and header. -/
def caerPolarityEventValidate (event : caer_polarity_event)
    (header : caer_event_packet_header) :
    caer_polarity_event × caer_event_packet_header :=
  if ¬ caerPolarityEventIsValid event then
    let event := { event with data := event.data ||| htole32 (1 <<< VALID_MARK_SHIFT) }
    let header := caerEventPacketHeaderSetEventNumber header
      (caerEventPacketHeaderGetEventNumber header + 1)
    let header := caerEventPacketHeaderSetEventValid header
      (caerEventPacketHeaderGetEventValid header + 1)
    (event, header)
  else
    (event, header)

/-- caerPolarityEventInvalidate: C's `~` on a `uint32_t` is modelled as xor
with `0xFFFFFFFF`. -/
def caerPolarityEventInvalidate (event : caer_polarity_event)
    (header : caer_event_packet_header) :
    caer_polarity_event × caer_event_packet_header :=
  if caerPolarityEventIsValid event then
    let event := { event with
      data := event.data &&& htole32 ((1 <<< VALID_MARK_SHIFT) ^^^ 0xFFFFFFFF) }
    let header := caerEventPacketHeaderSetEventValid header
      (caerEventPacketHeaderGetEventValid header - 1)
    (event, header)
  else
    (event, header)

def caerPolarityEventGetPolarity (event : caer_polarity_event) : Bool :=
  ((le32toh event.data >>> POLARITY_SHIFT) &&& POLARITY_MASK) != 0

def caerPolarityEventSetPolarity (event : caer_polarity_event)
    (polarity : Bool) : caer_polarity_event :=
  { event with
    data := event.data ||| htole32 ((U32TofBool polarity &&& POLARITY_MASK) <<< POLARITY_SHIFT) }

def caerPolarityEventGetY (event : caer_polarity_event) : Nat :=
  U16T ((le32toh event.data >>> Y_ADDR_SHIFT) &&& Y_ADDR_MASK)

/-- caerPolarityEventSetY: the `yAddress` parameter is a `uint16_t`; the
truncation `% 2 ^ 16` models the parameter type. -/
def caerPolarityEventSetY (event : caer_polarity_event)
    (yAddress : Nat) : caer_polarity_event :=
  { event with
    data := event.data ||| htole32 (((yAddress % 2 ^ 16) &&& Y_ADDR_MASK) <<< Y_ADDR_SHIFT) }

def caerPolarityEventGetX (event : caer_polarity_event) : Nat :=
  U16T ((le32toh event.data >>> X_ADDR_SHIFT) &&& X_ADDR_MASK)

/-- caerPolarityEventSetX: the `xAddress` parameter is a `uint16_t`; the
truncation `% 2 ^ 16` models the parameter type. -/
def caerPolarityEventSetX (event : caer_polarity_event)
    (xAddress : Nat) : caer_polarity_event :=
  { event with
    data := event.data ||| htole32 (((xAddress % 2 ^ 16) &&& X_ADDR_MASK) <<< X_ADDR_SHIFT) }

/-! IMU9 events (`imu9.h`).  The nine measurement channels and the temperature
are IEEE 754 binary32 values; the model stores each as its 32-bit bit pattern
(a `Nat`), which the identity byte-order conversions move unchanged. -/

/-- IMU9 event record: packed 32-bit `info` word (validity bit plus reserved
bits), signed 32-bit timestamp, and ten binary32 measurement fields stored as
bit patterns. -/
structure caer_imu9_event where
  info : Nat
  timestamp : Int
  accel_x : Nat
  accel_y : Nat
  accel_z : Nat
  gyro_x : Nat
  gyro_y : Nat
  gyro_z : Nat
  temp : Nat
  comp_x : Nat
  comp_y : Nat
  comp_z : Nat
deriving Repr, DecidableEq

/-- IMU9 event packet: common header plus the contiguous events array. -/
structure caer_imu9_event_packet where
  packetHeader : caer_event_packet_header
  events : List caer_imu9_event
deriving Repr, DecidableEq

/-- caerIMU9EventPacketGetEvent: bounds-checked indexed access; out of range
logs at critical severity and returns NULL (modelled as `none`). -/
def caerIMU9EventPacketGetEvent (packet : caer_imu9_event_packet)
    (n : Int) : Option caer_imu9_event :=
  if n < 0 ∨ caerEventPacketHeaderGetEventCapacity packet.packetHeader ≤ n then
    none
  else
    packet.events[n.toNat]?

def caerIMU9EventGetTimestamp (event : caer_imu9_event) : Int :=
  le32tohi event.timestamp

def caerIMU9EventGetTimestamp64 (event : caer_imu9_event)
    (packet : caer_imu9_event_packet) : Int :=
  I64T ((U64T (caerEventPacketHeaderGetEventTSOverflow packet.packetHeader) <<<
      TS_OVERFLOW_SHIFT) |||
    U64TofInt32 (caerIMU9EventGetTimestamp event))

/-- caerIMU9EventSetTimestamp: a negative timestamp is refused (logged at
critical severity, no state change). -/
def caerIMU9EventSetTimestamp (event : caer_imu9_event)
    (timestamp : Int) : caer_imu9_event :=
  if timestamp < 0 then
    event
  else
    { event with timestamp := htole32i timestamp }

def caerIMU9EventIsValid (event : caer_imu9_event) : Bool :=
  ((le32toh event.info >>> VALID_MARK_SHIFT) &&& VALID_MARK_MASK) != 0

/-- caerIMU9EventValidate: the C function mutates the record and the packet's
header in place; the model returns the updated record and header. -/
def caerIMU9EventValidate (event : caer_imu9_event)
    (header : caer_event_packet_header) :
    caer_imu9_event × caer_event_packet_header :=
  if ¬ caerIMU9EventIsValid event then
    let event := { event with info := event.info ||| htole32 (1 <<< VALID_MARK_SHIFT) }
    let header := caerEventPacketHeaderSetEventNumber header
      (caerEventPacketHeaderGetEventNumber header + 1)
    let header := caerEventPacketHeaderSetEventValid header
      (caerEventPacketHeaderGetEventValid header + 1)
    (event, header)
  else
    (event, header)

/-- caerIMU9EventInvalidate: C's `~` on a `uint32_t` is modelled as xor with
`0xFFFFFFFF`. -/
def caerIMU9EventInvalidate (event : caer_imu9_event)
    (header : caer_event_packet_header) :
    caer_imu9_event × caer_event_packet_header :=
  if caerIMU9EventIsValid event then
    let event := { event with
      info := event.info &&& htole32 ((1 <<< VALID_MARK_SHIFT) ^^^ 0xFFFFFFFF) }
    let header := caerEventPacketHeaderSetEventValid header
      (caerEventPacketHeaderGetEventValid header - 1)
    (event, header)
  else
    (event, header)

def caerIMU9EventGetAccelX (event : caer_imu9_event) : Nat := le32toh event.accel_x

def caerIMU9EventSetAccelX (event : caer_imu9_event) (accelX : Nat) : caer_imu9_event :=
  { event with accel_x := htole32 accelX }

def caerIMU9EventGetAccelY (event : caer_imu9_event) : Nat := le32toh event.accel_y

def caerIMU9EventSetAccelY (event : caer_imu9_event) (accelY : Nat) : caer_imu9_event :=
  { event with accel_y := htole32 accelY }

def caerIMU9EventGetAccelZ (event : caer_imu9_event) : Nat := le32toh event.accel_z

def caerIMU9EventSetAccelZ (event : caer_imu9_event) (accelZ : Nat) : caer_imu9_event :=
  { event with accel_z := htole32 accelZ }

def caerIMU9EventGetGyroX (event : caer_imu9_event) : Nat := le32toh event.gyro_x

def caerIMU9EventSetGyroX (event : caer_imu9_event) (gyroX : Nat) : caer_imu9_event :=
  { event with gyro_x := htole32 gyroX }

def caerIMU9EventGetGyroY (event : caer_imu9_event) : Nat := le32toh event.gyro_y

def caerIMU9EventSetGyroY (event : caer_imu9_event) (gyroY : Nat) : caer_imu9_event :=
  { event with gyro_y := htole32 gyroY }

def caerIMU9EventGetGyroZ (event : caer_imu9_event) : Nat := le32toh event.gyro_z

def caerIMU9EventSetGyroZ (event : caer_imu9_event) (gyroZ : Nat) : caer_imu9_event :=
  { event with gyro_z := htole32 gyroZ }

def caerIMU9EventGetCompX (event : caer_imu9_event) : Nat := le32toh event.comp_x

def caerIMU9EventSetCompX (event : caer_imu9_event) (compX : Nat) : caer_imu9_event :=
  { event with comp_x := htole32 compX }

def caerIMU9EventGetCompY (event : caer_imu9_event) : Nat := le32toh event.comp_y

def caerIMU9EventSetCompY (event : caer_imu9_event) (compY : Nat) : caer_imu9_event :=
  { event with comp_y := htole32 compY }

def caerIMU9EventGetCompZ (event : caer_imu9_event) : Nat := le32toh event.comp_z

def caerIMU9EventSetCompZ (event : caer_imu9_event) (compZ : Nat) : caer_imu9_event :=
  { event with comp_z := htole32 compZ }

def caerIMU9EventGetTemp (event : caer_imu9_event) : Nat := le32toh event.temp

def caerIMU9EventSetTemp (event : caer_imu9_event) (temp : Nat) : caer_imu9_event :=
  { event with temp := htole32 temp }

/-! Packet allocation and the validity protocol as packet-level operations. -/

/-- Zero-initialized polarity event record. -/
def zeroPolarityEvent : caer_polarity_event := { data := 0, timestamp := 0 }

/-- Zero-initialized IMU9 event record. -/
def zeroIMU9Event : caer_imu9_event :=
  { info := 0, timestamp := 0, accel_x := 0, accel_y := 0, accel_z := 0,
    gyro_x := 0, gyro_y := 0, gyro_z := 0, temp := 0,
    comp_x := 0, comp_y := 0, comp_z := 0 }

/-- Modelled from the spec: caerPolarityEventPacketAllocate is declared but not
defined in the excerpt; per §4.3 a successful allocation zero-fills all record
storage and sets `eventNumber = eventValid = 0`, `eventCapacity = capacity`,
`eventTSOverflow = initialOverflow`.  Only the successful case is modelled. -/
def caerPolarityEventPacketAllocate (eventCapacity : Nat)
    (tsOverflow : Nat) : caer_polarity_event_packet :=
  { packetHeader :=
      { eventNumber := 0, eventValid := 0, eventCapacity := (eventCapacity : Int),
        eventTSOverflow := tsOverflow }
    events := List.replicate eventCapacity zeroPolarityEvent }

/-- One step of the validity protocol on a polarity packet: validate or
invalidate the record at a given index. -/
inductive PolarityPacketOp where
  | doValidate (i : Nat)
  | doInvalidate (i : Nat)
deriving Repr, DecidableEq

/-- Apply one validity-protocol step to the packet: fetch the record at the
index and run `caerPolarityEventValidate` / `caerPolarityEventInvalidate` on it
and the packet's header, writing both back. -/
def applyPolarityPacketOp (packet : caer_polarity_event_packet) :
    PolarityPacketOp → caer_polarity_event_packet
  | .doValidate i =>
    match packet.events[i]? with
    | none => packet
    | some e =>
      let r := caerPolarityEventValidate e packet.packetHeader
      { packetHeader := r.2, events := packet.events.set i r.1 }
  | .doInvalidate i =>
    match packet.events[i]? with
    | none => packet
    | some e =>
      let r := caerPolarityEventInvalidate e packet.packetHeader
      { packetHeader := r.2, events := packet.events.set i r.1 }

/-- Run a sequence of validity-protocol steps on a polarity packet. -/
def runPolarityPacketOps (packet : caer_polarity_event_packet)
    (ops : List PolarityPacketOp) : caer_polarity_event_packet :=
  ops.foldl applyPolarityPacketOp packet

/-- Number of records of the list whose validity bit is set. -/
def countValidPolarity (l : List caer_polarity_event) : Nat :=
  l.countP (fun e => caerPolarityEventIsValid e)

/-! Helper lemmas about the validity bit of the packed word. -/

theorem or_one_and_one (d : Nat) : (d ||| 1) &&& 1 ≠ 0 := by
  have h1 : (d ||| 1) % 2 = 1 := Nat.or_mod_two_eq_one.mpr (Or.inr (by norm_num))
  simp [Nat.and_one_is_mod, h1]

theorem and_compl_bit0_and_one (d : Nat) :
    (d &&& ((1 <<< VALID_MARK_SHIFT) ^^^ 0xFFFFFFFF)) &&& 1 = 0 := by
  rw [Nat.and_assoc]
  have h : (((1 <<< VALID_MARK_SHIFT) ^^^ 0xFFFFFFFF) &&& 1 : Nat) = 0 := by decide
  rw [h, Nat.and_zero]

theorem pol_isValid_eq_true_iff (e : caer_polarity_event) :
    caerPolarityEventIsValid e = true ↔ e.data &&& 1 ≠ 0 := by
  simp [caerPolarityEventIsValid, le32toh, VALID_MARK_SHIFT, VALID_MARK_MASK]

theorem pol_isValid_eq_false_iff (e : caer_polarity_event) :
    caerPolarityEventIsValid e = false ↔ e.data &&& 1 = 0 := by
  simp [caerPolarityEventIsValid, le32toh, VALID_MARK_SHIFT, VALID_MARK_MASK]

theorem imu9_isValid_eq_true_iff (e : caer_imu9_event) :
    caerIMU9EventIsValid e = true ↔ e.info &&& 1 ≠ 0 := by
  simp [caerIMU9EventIsValid, le32toh, VALID_MARK_SHIFT, VALID_MARK_MASK]

theorem imu9_isValid_eq_false_iff (e : caer_imu9_event) :
    caerIMU9EventIsValid e = false ↔ e.info &&& 1 = 0 := by
  simp [caerIMU9EventIsValid, le32toh, VALID_MARK_SHIFT, VALID_MARK_MASK]

theorem pol_validate_of_invalid (e : caer_polarity_event)
    (h : caer_event_packet_header) (hv : caerPolarityEventIsValid e = false) :
    caerPolarityEventValidate e h =
      ({ e with data := e.data ||| 1 },
       { h with eventNumber := h.eventNumber + 1, eventValid := h.eventValid + 1 }) := by
  simp [caerPolarityEventValidate, hv, htole32, VALID_MARK_SHIFT,
    caerEventPacketHeaderSetEventNumber, caerEventPacketHeaderGetEventNumber,
    caerEventPacketHeaderSetEventValid, caerEventPacketHeaderGetEventValid]

theorem pol_validate_of_valid (e : caer_polarity_event)
    (h : caer_event_packet_header) (hv : caerPolarityEventIsValid e = true) :
    caerPolarityEventValidate e h = (e, h) := by
  simp [caerPolarityEventValidate, hv]

theorem pol_isValid_after_set (e : caer_polarity_event) :
    caerPolarityEventIsValid { e with data := e.data ||| 1 } = true := by
  rw [pol_isValid_eq_true_iff]
  exact or_one_and_one e.data

theorem imu9_validate_of_invalid (e : caer_imu9_event)
    (h : caer_event_packet_header) (hv : caerIMU9EventIsValid e = false) :
    caerIMU9EventValidate e h =
      ({ e with info := e.info ||| 1 },
       { h with eventNumber := h.eventNumber + 1, eventValid := h.eventValid + 1 }) := by
  simp [caerIMU9EventValidate, hv, htole32, VALID_MARK_SHIFT,
    caerEventPacketHeaderSetEventNumber, caerEventPacketHeaderGetEventNumber,
    caerEventPacketHeaderSetEventValid, caerEventPacketHeaderGetEventValid]

theorem imu9_validate_of_valid (e : caer_imu9_event)
    (h : caer_event_packet_header) (hv : caerIMU9EventIsValid e = true) :
    caerIMU9EventValidate e h = (e, h) := by
  simp [caerIMU9EventValidate, hv]

theorem imu9_isValid_after_set (e : caer_imu9_event) :
    caerIMU9EventIsValid { e with info := e.info ||| 1 } = true := by
  rw [imu9_isValid_eq_true_iff]
  exact or_one_and_one e.info

/-- C1: for Polarity and IMU9 records, validate on an invalid record sets the
validity bit and increments the header's eventNumber and eventValid by exactly
1; validate on an already-valid record leaves record and header unchanged; and
validating twice in a row ends in the same state as validating once. -/
theorem caer_validate_spec (e : caer_polarity_event) (h : caer_event_packet_header)
    (e9 : caer_imu9_event) (h9 : caer_event_packet_header) :
    (caerPolarityEventIsValid e = false →
      caerPolarityEventIsValid (caerPolarityEventValidate e h).1 = true ∧
      (caerPolarityEventValidate e h).2.eventNumber = h.eventNumber + 1 ∧
      (caerPolarityEventValidate e h).2.eventValid = h.eventValid + 1) ∧
    (caerPolarityEventIsValid e = true → caerPolarityEventValidate e h = (e, h)) ∧
    caerPolarityEventValidate (caerPolarityEventValidate e h).1
        (caerPolarityEventValidate e h).2 = caerPolarityEventValidate e h ∧
    (caerIMU9EventIsValid e9 = false →
      caerIMU9EventIsValid (caerIMU9EventValidate e9 h9).1 = true ∧
      (caerIMU9EventValidate e9 h9).2.eventNumber = h9.eventNumber + 1 ∧
      (caerIMU9EventValidate e9 h9).2.eventValid = h9.eventValid + 1) ∧
    (caerIMU9EventIsValid e9 = true → caerIMU9EventValidate e9 h9 = (e9, h9)) ∧
    caerIMU9EventValidate (caerIMU9EventValidate e9 h9).1
        (caerIMU9EventValidate e9 h9).2 = caerIMU9EventValidate e9 h9 := by
  refine ⟨?_, ?_, ?_, ?_, ?_, ?_⟩
  · intro hv
    rw [pol_validate_of_invalid e h hv]
    exact ⟨pol_isValid_after_set e, rfl, rfl⟩
  · intro hv
    exact pol_validate_of_valid e h hv
  · cases hv : caerPolarityEventIsValid e with
    | false =>
      rw [pol_validate_of_invalid e h hv]
      exact pol_validate_of_valid _ _ (pol_isValid_after_set e)
    | true =>
      rw [pol_validate_of_valid e h hv]
      exact pol_validate_of_valid e h hv
  · intro hv
    rw [imu9_validate_of_invalid e9 h9 hv]
    exact ⟨imu9_isValid_after_set e9, rfl, rfl⟩
  · intro hv
    exact imu9_validate_of_valid e9 h9 hv
  · cases hv : caerIMU9EventIsValid e9 with
    | false =>
      rw [imu9_validate_of_invalid e9 h9 hv]
      exact imu9_validate_of_valid _ _ (imu9_isValid_after_set e9)
    | true =>
      rw [imu9_validate_of_valid e9 h9 hv]
      exact imu9_validate_of_valid e9 h9 hv

/-- C1 witness: concrete instantiation at zero-initialized records and a
header with eventNumber = eventValid = 0, eventCapacity = 4. -/
theorem caer_validate_spec_witness :
    (caerPolarityEventIsValid
        (caerPolarityEventValidate zeroPolarityEvent ⟨0, 0, 4, 0⟩).1 = true ∧
      (caerPolarityEventValidate zeroPolarityEvent ⟨0, 0, 4, 0⟩).2.eventNumber = 0 + 1 ∧
      (caerPolarityEventValidate zeroPolarityEvent ⟨0, 0, 4, 0⟩).2.eventValid = 0 + 1) ∧
    (caerIMU9EventIsValid (caerIMU9EventValidate zeroIMU9Event ⟨0, 0, 4, 0⟩).1 = true ∧
      (caerIMU9EventValidate zeroIMU9Event ⟨0, 0, 4, 0⟩).2.eventNumber = 0 + 1 ∧
      (caerIMU9EventValidate zeroIMU9Event ⟨0, 0, 4, 0⟩).2.eventValid = 0 + 1) :=
  ⟨(caer_validate_spec zeroPolarityEvent ⟨0, 0, 4, 0⟩ zeroIMU9Event ⟨0, 0, 4, 0⟩).1
      (by decide),
   (caer_validate_spec zeroPolarityEvent ⟨0, 0, 4, 0⟩ zeroIMU9Event
      ⟨0, 0, 4, 0⟩).2.2.2.1 (by decide)⟩

theorem pol_invalidate_of_valid (e : caer_polarity_event)
    (h : caer_event_packet_header) (hv : caerPolarityEventIsValid e = true) :
    caerPolarityEventInvalidate e h =
      ({ e with data := e.data &&& ((1 <<< VALID_MARK_SHIFT) ^^^ 0xFFFFFFFF) },
       { h with eventValid := h.eventValid - 1 }) := by
  simp [caerPolarityEventInvalidate, hv, htole32,
    caerEventPacketHeaderSetEventValid, caerEventPacketHeaderGetEventValid]

theorem pol_invalidate_of_invalid (e : caer_polarity_event)
    (h : caer_event_packet_header) (hv : caerPolarityEventIsValid e = false) :
    caerPolarityEventInvalidate e h = (e, h) := by
  simp [caerPolarityEventInvalidate, hv]

theorem pol_isValid_after_clear (e : caer_polarity_event) :
    caerPolarityEventIsValid
      { e with data := e.data &&& ((1 <<< VALID_MARK_SHIFT) ^^^ 0xFFFFFFFF) } = false := by
  rw [pol_isValid_eq_false_iff]
  exact and_compl_bit0_and_one e.data

theorem imu9_invalidate_of_valid (e : caer_imu9_event)
    (h : caer_event_packet_header) (hv : caerIMU9EventIsValid e = true) :
    caerIMU9EventInvalidate e h =
      ({ e with info := e.info &&& ((1 <<< VALID_MARK_SHIFT) ^^^ 0xFFFFFFFF) },
       { h with eventValid := h.eventValid - 1 }) := by
  simp [caerIMU9EventInvalidate, hv, htole32,
    caerEventPacketHeaderSetEventValid, caerEventPacketHeaderGetEventValid]

theorem imu9_invalidate_of_invalid (e : caer_imu9_event)
    (h : caer_event_packet_header) (hv : caerIMU9EventIsValid e = false) :
    caerIMU9EventInvalidate e h = (e, h) := by
  simp [caerIMU9EventInvalidate, hv]

theorem imu9_isValid_after_clear (e : caer_imu9_event) :
    caerIMU9EventIsValid
      { e with info := e.info &&& ((1 <<< VALID_MARK_SHIFT) ^^^ 0xFFFFFFFF) } = false := by
  rw [imu9_isValid_eq_false_iff]
  exact and_compl_bit0_and_one e.info

/-- C2: for Polarity and IMU9 records, invalidate on a valid record clears the
validity bit and decrements the header's eventValid by exactly 1 while leaving
eventNumber unchanged; invalidate on an already-invalid record changes
nothing; and validate followed by invalidate on a zero-initialized record
restores eventValid to its pre-validate value while eventNumber keeps its
post-validate value. -/
theorem caer_invalidate_spec (e : caer_polarity_event) (h : caer_event_packet_header)
    (e9 : caer_imu9_event) (h9 : caer_event_packet_header) :
    (caerPolarityEventIsValid e = true →
      caerPolarityEventIsValid (caerPolarityEventInvalidate e h).1 = false ∧
      (caerPolarityEventInvalidate e h).2.eventValid = h.eventValid - 1 ∧
      (caerPolarityEventInvalidate e h).2.eventNumber = h.eventNumber) ∧
    (caerPolarityEventIsValid e = false → caerPolarityEventInvalidate e h = (e, h)) ∧
    ((caerPolarityEventInvalidate (caerPolarityEventValidate zeroPolarityEvent h).1
        (caerPolarityEventValidate zeroPolarityEvent h).2).2.eventValid = h.eventValid ∧
      (caerPolarityEventInvalidate (caerPolarityEventValidate zeroPolarityEvent h).1
        (caerPolarityEventValidate zeroPolarityEvent h).2).2.eventNumber =
        (caerPolarityEventValidate zeroPolarityEvent h).2.eventNumber) ∧
    (caerIMU9EventIsValid e9 = true →
      caerIMU9EventIsValid (caerIMU9EventInvalidate e9 h9).1 = false ∧
      (caerIMU9EventInvalidate e9 h9).2.eventValid = h9.eventValid - 1 ∧
      (caerIMU9EventInvalidate e9 h9).2.eventNumber = h9.eventNumber) ∧
    (caerIMU9EventIsValid e9 = false → caerIMU9EventInvalidate e9 h9 = (e9, h9)) ∧
    ((caerIMU9EventInvalidate (caerIMU9EventValidate zeroIMU9Event h9).1
        (caerIMU9EventValidate zeroIMU9Event h9).2).2.eventValid = h9.eventValid ∧
      (caerIMU9EventInvalidate (caerIMU9EventValidate zeroIMU9Event h9).1
        (caerIMU9EventValidate zeroIMU9Event h9).2).2.eventNumber =
        (caerIMU9EventValidate zeroIMU9Event h9).2.eventNumber) := by
  refine ⟨?_, ?_, ?_, ?_, ?_, ?_⟩
  · intro hv
    rw [pol_invalidate_of_valid e h hv]
    exact ⟨pol_isValid_after_clear e, rfl, rfl⟩
  · intro hv
    exact pol_invalidate_of_invalid e h hv
  · rw [pol_validate_of_invalid zeroPolarityEvent h (by decide)]
    rw [pol_invalidate_of_valid _ _ (pol_isValid_after_set zeroPolarityEvent)]
    constructor
    · simp
    · rfl
  · intro hv
    rw [imu9_invalidate_of_valid e9 h9 hv]
    exact ⟨imu9_isValid_after_clear e9, rfl, rfl⟩
  · intro hv
    exact imu9_invalidate_of_invalid e9 h9 hv
  · rw [imu9_validate_of_invalid zeroIMU9Event h9 (by decide)]
    rw [imu9_invalidate_of_valid _ _ (imu9_isValid_after_set zeroIMU9Event)]
    constructor
    · simp
    · rfl

/-- C2 witness: concrete instantiation; the record with word 1 is valid, the
header starts with eventNumber = 1 and eventValid = 1. -/
theorem caer_invalidate_spec_witness :
    (caerPolarityEventIsValid
        (caerPolarityEventInvalidate ⟨1, 0⟩ ⟨1, 1, 4, 0⟩).1 = false ∧
      (caerPolarityEventInvalidate ⟨1, 0⟩ ⟨1, 1, 4, 0⟩).2.eventValid = 1 - 1 ∧
      (caerPolarityEventInvalidate ⟨1, 0⟩ ⟨1, 1, 4, 0⟩).2.eventNumber = 1) ∧
    (caerIMU9EventInvalidate zeroIMU9Event ⟨0, 0, 4, 0⟩ = (zeroIMU9Event, ⟨0, 0, 4, 0⟩)) :=
  ⟨(caer_invalidate_spec ⟨1, 0⟩ ⟨1, 1, 4, 0⟩ zeroIMU9Event ⟨0, 0, 4, 0⟩).1 (by decide),
   (caer_invalidate_spec ⟨1, 0⟩ ⟨1, 1, 4, 0⟩ zeroIMU9Event
      ⟨0, 0, 4, 0⟩).2.2.2.2.1 (by decide)⟩

theorem compose64_eq (ovf : Nat) (ts : Int) (hovf : ovf < 2 ^ 32)
    (h0 : 0 ≤ ts) (h31 : ts < 2 ^ 31) :
    I64T ((U64T (ovf % 2 ^ 32) <<< TS_OVERFLOW_SHIFT) ||| U64TofInt32 (le32tohi ts)) =
      (((ovf <<< TS_OVERFLOW_SHIFT) ||| ts.toNat : Nat) : Int) := by
  have hmod : ovf % 2 ^ 32 = ovf := Nat.mod_eq_of_lt hovf
  have hu64 : U64T ovf = ovf := Nat.mod_eq_of_lt (lt_trans hovf (by norm_num))
  have hlt : ts < (2 : Int) ^ 64 := lt_trans h31 (by norm_num)
  have hts : U64TofInt32 (le32tohi ts) = ts.toNat := by
    rw [U64TofInt32, le32tohi, Int.emod_eq_of_lt h0 hlt]
  rw [hmod, hu64, hts]
  have hsh : ovf <<< TS_OVERFLOW_SHIFT < 2 ^ 63 := by
    rw [Nat.shiftLeft_eq, TS_OVERFLOW_SHIFT]
    calc ovf * 2 ^ 31 < 2 ^ 32 * 2 ^ 31 :=
          mul_lt_mul_of_pos_right hovf (by norm_num)
      _ = 2 ^ 63 := by norm_num
  have htsn : ts.toNat < 2 ^ 63 := by
    have h1 : ts.toNat < 2 ^ 31 := by omega
    have h2 : (2 : Nat) ^ 31 < 2 ^ 63 := by norm_num
    omega
  have hor : (ovf <<< TS_OVERFLOW_SHIFT) ||| ts.toNat < 2 ^ 63 :=
    Nat.or_lt_two_pow hsh htsn
  unfold I64T
  rw [Nat.mod_eq_of_lt (lt_trans hor (by norm_num)), if_pos hor]

/-- C3: for Polarity and IMU9 records whose stored timestamp respects the
31-bit contract and a header overflow counter in uint32 range, GetTimestamp64
returns the overflow counter (as an unsigned bit pattern) shifted left by 31,
bitwise-ORed with the record's stored timestamp, as a signed 64-bit value. -/
theorem caer_getTimestamp64_spec (e : caer_polarity_event)
    (p : caer_polarity_event_packet) (e9 : caer_imu9_event)
    (p9 : caer_imu9_event_packet)
    (hts : 0 ≤ e.timestamp) (hts31 : e.timestamp < 2 ^ 31)
    (hovf : p.packetHeader.eventTSOverflow < 2 ^ 32)
    (hts9 : 0 ≤ e9.timestamp) (hts931 : e9.timestamp < 2 ^ 31)
    (hovf9 : p9.packetHeader.eventTSOverflow < 2 ^ 32) :
    caerPolarityEventGetTimestamp64 e p =
      (((p.packetHeader.eventTSOverflow <<< TS_OVERFLOW_SHIFT) |||
        e.timestamp.toNat : Nat) : Int) ∧
    caerIMU9EventGetTimestamp64 e9 p9 =
      (((p9.packetHeader.eventTSOverflow <<< TS_OVERFLOW_SHIFT) |||
        e9.timestamp.toNat : Nat) : Int) := by
  constructor
  · simp only [caerPolarityEventGetTimestamp64,
      caerEventPacketHeaderGetEventTSOverflow, caerPolarityEventGetTimestamp]
    exact compose64_eq _ _ hovf hts hts31
  · simp only [caerIMU9EventGetTimestamp64,
      caerEventPacketHeaderGetEventTSOverflow, caerIMU9EventGetTimestamp]
    exact compose64_eq _ _ hovf9 hts9 hts931

/-- C3 witness: with overflow counter 3 and stored timestamp 5 the composed
64-bit timestamp is (3 <<< 31) ||| 5 = 6442450949, for both event types. -/
theorem caer_getTimestamp64_spec_witness :
    caerPolarityEventGetTimestamp64 ⟨0, 5⟩ ⟨⟨0, 0, 0, 3⟩, []⟩ = 6442450949 ∧
    caerIMU9EventGetTimestamp64
      { zeroIMU9Event with timestamp := 5 } ⟨⟨0, 0, 0, 3⟩, []⟩ = 6442450949 := by
  have h := caer_getTimestamp64_spec ⟨0, 5⟩ ⟨⟨0, 0, 0, 3⟩, []⟩
    { zeroIMU9Event with timestamp := 5 } ⟨⟨0, 0, 0, 3⟩, []⟩
    (by decide) (by decide) (by decide) (by decide) (by decide) (by decide)
  constructor
  · rw [h.1]; decide
  · rw [h.2]; decide

/-! Generic lemmas about the shift/mask bit-field codec pattern
`word ||| ((value &&& mask) <<< shift)` with `mask = 2 ^ k - 1`. -/

theorem testBit_or_masked_shift (w v s k i : Nat) (h : i < s ∨ s + k ≤ i) :
    (w ||| ((v &&& (2 ^ k - 1)) <<< s)).testBit i = w.testBit i := by
  have hv : ((v &&& (2 ^ k - 1)) <<< s).testBit i = false := by
    rw [Nat.testBit_shiftLeft]
    rcases h with h | h
    · simp [show ¬ s ≤ i from by omega]
    · have hpos : 0 < 2 ^ k := Nat.two_pow_pos k
      have hlt : v &&& (2 ^ k - 1) < 2 ^ k :=
        Nat.and_lt_two_pow v (by omega)
      have hlt' : v &&& (2 ^ k - 1) < 2 ^ (i - s) :=
        lt_of_lt_of_le hlt (Nat.pow_le_pow_right (by norm_num) (by omega))
      rw [Nat.testBit_lt_two_pow hlt', Bool.and_false]
  rw [Nat.testBit_or, hv, Bool.or_false]

theorem get_or_masked_disjoint (w v s k t m : Nat)
    (h : t + m ≤ s ∨ s + k ≤ t) :
    ((w ||| ((v &&& (2 ^ k - 1)) <<< s)) >>> t) &&& (2 ^ m - 1) =
      (w >>> t) &&& (2 ^ m - 1) := by
  apply Nat.eq_of_testBit_eq
  intro i
  simp only [Nat.testBit_and, Nat.testBit_shiftRight, Nat.testBit_two_pow_sub_one]
  by_cases hik : i < m
  · rw [testBit_or_masked_shift w v s k (t + i) (by omega)]
  · simp [hik]

theorem get_or_masked_same (w v s k : Nat) :
    ((w ||| ((v &&& (2 ^ k - 1)) <<< s)) >>> s) &&& (2 ^ k - 1) =
      ((w >>> s) &&& (2 ^ k - 1)) ||| (v &&& (2 ^ k - 1)) := by
  apply Nat.eq_of_testBit_eq
  intro i
  simp only [Nat.testBit_and, Nat.testBit_or, Nat.testBit_shiftRight,
    Nat.testBit_shiftLeft, Nat.testBit_two_pow_sub_one]
  have h1 : s ≤ s + i := Nat.le_add_right s i
  have h2 : s + i - s = i := by omega
  rw [h2]
  cases hw : w.testBit (s + i) <;> cases hv : v.testBit i <;>
    by_cases hik : i < k <;> simp [h1, hik]

theorem mod16_and_mask15 (x : Nat) :
    (x % 2 ^ 16) &&& (2 ^ 15 - 1) = x &&& (2 ^ 15 - 1) := by
  conv_lhs => rw [← Nat.and_pow_two_sub_one_eq_mod]
  rw [Nat.and_assoc]
  have h : ((2 ^ 16 - 1 : Nat) &&& (2 ^ 15 - 1)) = 2 ^ 15 - 1 := by decide
  rw [h]

/-- C5: decoding a Polarity field immediately after encoding an in-range value
into a zero-initialized data word yields exactly that value (polarity a
boolean, X and Y in 0-32767). -/
theorem caer_polarity_roundtrip (b : Bool) (x y : Nat) :
    caerPolarityEventGetPolarity (caerPolarityEventSetPolarity zeroPolarityEvent b) = b ∧
    (x ≤ 32767 →
      caerPolarityEventGetX (caerPolarityEventSetX zeroPolarityEvent x) = x) ∧
    (y ≤ 32767 →
      caerPolarityEventGetY (caerPolarityEventSetY zeroPolarityEvent y) = y) := by
  refine ⟨?_, ?_, ?_⟩
  · cases b <;> rfl
  · intro hx
    simp only [caerPolarityEventGetX, caerPolarityEventSetX, zeroPolarityEvent,
      le32toh, htole32, U16T, X_ADDR_SHIFT, X_ADDR_MASK]
    show ((0 ||| (((x % 2 ^ 16) &&& (2 ^ 15 - 1)) <<< 17)) >>> 17 &&&
      (2 ^ 15 - 1)) % 2 ^ 16 = x
    rw [get_or_masked_same 0 (x % 2 ^ 16) 17 15]
    simp only [Nat.zero_shiftRight, Nat.zero_and, Nat.zero_or]
    rw [mod16_and_mask15, Nat.and_pow_two_sub_one_eq_mod]
    have hx15 : x < 2 ^ 15 := lt_of_le_of_lt hx (by norm_num)
    rw [Nat.mod_eq_of_lt hx15, Nat.mod_eq_of_lt (lt_trans hx15 (by norm_num))]
  · intro hy
    simp only [caerPolarityEventGetY, caerPolarityEventSetY, zeroPolarityEvent,
      le32toh, htole32, U16T, Y_ADDR_SHIFT, Y_ADDR_MASK]
    show ((0 ||| (((y % 2 ^ 16) &&& (2 ^ 15 - 1)) <<< 2)) >>> 2 &&&
      (2 ^ 15 - 1)) % 2 ^ 16 = y
    rw [get_or_masked_same 0 (y % 2 ^ 16) 2 15]
    simp only [Nat.zero_shiftRight, Nat.zero_and, Nat.zero_or]
    rw [mod16_and_mask15, Nat.and_pow_two_sub_one_eq_mod]
    have hy15 : y < 2 ^ 15 := lt_of_le_of_lt hy (by norm_num)
    rw [Nat.mod_eq_of_lt hy15, Nat.mod_eq_of_lt (lt_trans hy15 (by norm_num))]

/-- C5 witness: concrete round-trips at polarity = true, X = 100, Y = 200. -/
theorem caer_polarity_roundtrip_witness :
    caerPolarityEventGetPolarity
      (caerPolarityEventSetPolarity zeroPolarityEvent true) = true ∧
    caerPolarityEventGetX (caerPolarityEventSetX zeroPolarityEvent 100) = 100 ∧
    caerPolarityEventGetY (caerPolarityEventSetY zeroPolarityEvent 200) = 200 :=
  ⟨(caer_polarity_roundtrip true 100 200).1,
   (caer_polarity_roundtrip true 100 200).2.1 (by norm_num),
   (caer_polarity_roundtrip true 100 200).2.2 (by norm_num)⟩

/-- C6: Polarity field encoders OR new bits into the packed word without
clearing the field first: encoding a then b into a zero-initialized word
leaves the field's decoded value equal to the bitwise OR of the masked
values, and in particular (Y = 1 then Y = 2) decodes to 3, not to 2. -/
theorem caer_polarity_double_encode (a b : Nat) (pa pb : Bool) :
    caerPolarityEventGetY
        (caerPolarityEventSetY (caerPolarityEventSetY zeroPolarityEvent a) b) =
      (a &&& Y_ADDR_MASK) ||| (b &&& Y_ADDR_MASK) ∧
    caerPolarityEventGetX
        (caerPolarityEventSetX (caerPolarityEventSetX zeroPolarityEvent a) b) =
      (a &&& X_ADDR_MASK) ||| (b &&& X_ADDR_MASK) ∧
    caerPolarityEventGetPolarity
        (caerPolarityEventSetPolarity
          (caerPolarityEventSetPolarity zeroPolarityEvent pa) pb) = (pa || pb) ∧
    caerPolarityEventGetY
        (caerPolarityEventSetY (caerPolarityEventSetY zeroPolarityEvent 1) 2) = 3 ∧
    caerPolarityEventGetY
        (caerPolarityEventSetY (caerPolarityEventSetY zeroPolarityEvent 1) 2) ≠ 2 := by
  refine ⟨?_, ?_, ?_, by decide, by decide⟩
  · simp only [caerPolarityEventGetY, caerPolarityEventSetY, zeroPolarityEvent,
      le32toh, htole32, U16T, Y_ADDR_SHIFT, Y_ADDR_MASK]
    show (((0 ||| (((a % 2 ^ 16) &&& (2 ^ 15 - 1)) <<< 2)) |||
        (((b % 2 ^ 16) &&& (2 ^ 15 - 1)) <<< 2)) >>> 2 &&&
      (2 ^ 15 - 1)) % 2 ^ 16 = (a &&& (2 ^ 15 - 1)) ||| (b &&& (2 ^ 15 - 1))
    rw [get_or_masked_same _ (b % 2 ^ 16) 2 15, get_or_masked_same 0 (a % 2 ^ 16) 2 15]
    simp only [Nat.zero_shiftRight, Nat.zero_and, Nat.zero_or]
    rw [mod16_and_mask15 a, mod16_and_mask15 b]
    have hb : (a &&& (2 ^ 15 - 1)) ||| (b &&& (2 ^ 15 - 1)) < 2 ^ 16 := by
      have h1 : a &&& (2 ^ 15 - 1) < 2 ^ 15 := Nat.and_lt_two_pow a (by norm_num)
      have h2 : b &&& (2 ^ 15 - 1) < 2 ^ 15 := Nat.and_lt_two_pow b (by norm_num)
      exact lt_trans (Nat.or_lt_two_pow h1 h2) (by norm_num)
    exact Nat.mod_eq_of_lt hb
  · simp only [caerPolarityEventGetX, caerPolarityEventSetX, zeroPolarityEvent,
      le32toh, htole32, U16T, X_ADDR_SHIFT, X_ADDR_MASK]
    show (((0 ||| (((a % 2 ^ 16) &&& (2 ^ 15 - 1)) <<< 17)) |||
        (((b % 2 ^ 16) &&& (2 ^ 15 - 1)) <<< 17)) >>> 17 &&&
      (2 ^ 15 - 1)) % 2 ^ 16 = (a &&& (2 ^ 15 - 1)) ||| (b &&& (2 ^ 15 - 1))
    rw [get_or_masked_same _ (b % 2 ^ 16) 17 15, get_or_masked_same 0 (a % 2 ^ 16) 17 15]
    simp only [Nat.zero_shiftRight, Nat.zero_and, Nat.zero_or]
    rw [mod16_and_mask15 a, mod16_and_mask15 b]
    have hb : (a &&& (2 ^ 15 - 1)) ||| (b &&& (2 ^ 15 - 1)) < 2 ^ 16 := by
      have h1 : a &&& (2 ^ 15 - 1) < 2 ^ 15 := Nat.and_lt_two_pow a (by norm_num)
      have h2 : b &&& (2 ^ 15 - 1) < 2 ^ 15 := Nat.and_lt_two_pow b (by norm_num)
      exact lt_trans (Nat.or_lt_two_pow h1 h2) (by norm_num)
    exact Nat.mod_eq_of_lt hb
  · cases pa <;> cases pb <;> rfl

/-- C10: each Polarity field setter masks its input and ORs it in, so it
modifies only its own field's bit range of the data word (SetX bits 17-31,
SetY bits 2-16, SetPolarity bit 1); the validity bit and all other fields
decode identically before and after the call, for any input value. -/
theorem caer_polarity_setter_frame (e : caer_polarity_event) (v : Nat) (b : Bool) :
    ((∀ i, i < 17 ∨ 32 ≤ i →
        ((caerPolarityEventSetX e v).data).testBit i = e.data.testBit i) ∧
      caerPolarityEventGetY (caerPolarityEventSetX e v) = caerPolarityEventGetY e ∧
      caerPolarityEventGetPolarity (caerPolarityEventSetX e v) =
        caerPolarityEventGetPolarity e ∧
      caerPolarityEventIsValid (caerPolarityEventSetX e v) =
        caerPolarityEventIsValid e) ∧
    ((∀ i, i < 2 ∨ 17 ≤ i →
        ((caerPolarityEventSetY e v).data).testBit i = e.data.testBit i) ∧
      caerPolarityEventGetX (caerPolarityEventSetY e v) = caerPolarityEventGetX e ∧
      caerPolarityEventGetPolarity (caerPolarityEventSetY e v) =
        caerPolarityEventGetPolarity e ∧
      caerPolarityEventIsValid (caerPolarityEventSetY e v) =
        caerPolarityEventIsValid e) ∧
    ((∀ i, i ≠ 1 →
        ((caerPolarityEventSetPolarity e b).data).testBit i = e.data.testBit i) ∧
      caerPolarityEventGetX (caerPolarityEventSetPolarity e b) =
        caerPolarityEventGetX e ∧
      caerPolarityEventGetY (caerPolarityEventSetPolarity e b) =
        caerPolarityEventGetY e ∧
      caerPolarityEventIsValid (caerPolarityEventSetPolarity e b) =
        caerPolarityEventIsValid e) := by
  refine ⟨⟨?_, ?_, ?_, ?_⟩, ⟨?_, ?_, ?_, ?_⟩, ⟨?_, ?_, ?_, ?_⟩⟩
  · intro i hi
    exact testBit_or_masked_shift e.data (v % 2 ^ 16) 17 15 i (by omega)
  · exact congrArg (fun t => U16T t)
      (get_or_masked_disjoint e.data (v % 2 ^ 16) 17 15 2 15 (by omega))
  · exact congrArg (fun t => t != 0)
      (get_or_masked_disjoint e.data (v % 2 ^ 16) 17 15 1 1 (by omega))
  · exact congrArg (fun t => t != 0)
      (get_or_masked_disjoint e.data (v % 2 ^ 16) 17 15 0 1 (by omega))
  · intro i hi
    exact testBit_or_masked_shift e.data (v % 2 ^ 16) 2 15 i (by omega)
  · exact congrArg (fun t => U16T t)
      (get_or_masked_disjoint e.data (v % 2 ^ 16) 2 15 17 15 (by omega))
  · exact congrArg (fun t => t != 0)
      (get_or_masked_disjoint e.data (v % 2 ^ 16) 2 15 1 1 (by omega))
  · exact congrArg (fun t => t != 0)
      (get_or_masked_disjoint e.data (v % 2 ^ 16) 2 15 0 1 (by omega))
  · intro i hi
    exact testBit_or_masked_shift e.data (U32TofBool b) 1 1 i (by omega)
  · exact congrArg (fun t => U16T t)
      (get_or_masked_disjoint e.data (U32TofBool b) 1 1 17 15 (by omega))
  · exact congrArg (fun t => U16T t)
      (get_or_masked_disjoint e.data (U32TofBool b) 1 1 2 15 (by omega))
  · exact congrArg (fun t => t != 0)
      (get_or_masked_disjoint e.data (U32TofBool b) 1 1 0 1 (by omega))

/-- C10 witness: concrete instantiation at a word with all bits of the low 32
set, X value 70000 (above the 15-bit range) and polarity bit true. -/
theorem caer_polarity_setter_frame_witness :
    ((caerPolarityEventSetX ⟨0xFFFFFFFF, 0⟩ 70000).data).testBit 0 =
      (0xFFFFFFFF : Nat).testBit 0 ∧
    caerPolarityEventGetY (caerPolarityEventSetX ⟨0xFFFFFFFF, 0⟩ 70000) =
      caerPolarityEventGetY ⟨0xFFFFFFFF, 0⟩ ∧
    caerPolarityEventIsValid (caerPolarityEventSetPolarity ⟨0xFFFFFFFF, 0⟩ true) =
      caerPolarityEventIsValid ⟨0xFFFFFFFF, 0⟩ :=
  ⟨(caer_polarity_setter_frame ⟨0xFFFFFFFF, 0⟩ 70000 true).1.1 0 (by norm_num),
   (caer_polarity_setter_frame ⟨0xFFFFFFFF, 0⟩ 70000 true).1.2.1,
   (caer_polarity_setter_frame ⟨0xFFFFFFFF, 0⟩ 70000 true).2.2.2.2.2⟩

/-- C7: writing a negative timestamp via SetTimestamp is refused and leaves
the record unchanged; writing any timestamp ≥ 0 stores it, so a subsequent
GetTimestamp returns it — for both Polarity and IMU9 records. -/
theorem caer_setTimestamp_spec (e : caer_polarity_event) (e9 : caer_imu9_event)
    (ts : Int) :
    (ts < 0 → caerPolarityEventSetTimestamp e ts = e) ∧
    (0 ≤ ts →
      caerPolarityEventGetTimestamp (caerPolarityEventSetTimestamp e ts) = ts) ∧
    (ts < 0 → caerIMU9EventSetTimestamp e9 ts = e9) ∧
    (0 ≤ ts →
      caerIMU9EventGetTimestamp (caerIMU9EventSetTimestamp e9 ts) = ts) := by
  refine ⟨?_, ?_, ?_, ?_⟩
  · intro h
    simp [caerPolarityEventSetTimestamp, h]
  · intro h
    simp [caerPolarityEventSetTimestamp, caerPolarityEventGetTimestamp,
      htole32i, le32tohi, show ¬ ts < 0 from not_lt.mpr h]
  · intro h
    simp [caerIMU9EventSetTimestamp, h]
  · intro h
    simp [caerIMU9EventSetTimestamp, caerIMU9EventGetTimestamp,
      htole32i, le32tohi, show ¬ ts < 0 from not_lt.mpr h]

/-- C7 witness: writing -1 to a record whose stored timestamp is 7 leaves it
storing 7; writing 42 makes GetTimestamp return 42. -/
theorem caer_setTimestamp_spec_witness :
    caerPolarityEventSetTimestamp ⟨0, 7⟩ (-1) = (⟨0, 7⟩ : caer_polarity_event) ∧
    caerPolarityEventGetTimestamp (caerPolarityEventSetTimestamp ⟨0, 7⟩ 42) = 42 ∧
    caerIMU9EventSetTimestamp { zeroIMU9Event with timestamp := 7 } (-1) =
      { zeroIMU9Event with timestamp := 7 } ∧
    caerIMU9EventGetTimestamp
      (caerIMU9EventSetTimestamp { zeroIMU9Event with timestamp := 7 } 42) = 42 :=
  ⟨(caer_setTimestamp_spec ⟨0, 7⟩ { zeroIMU9Event with timestamp := 7 } (-1)).1
      (by norm_num),
   (caer_setTimestamp_spec ⟨0, 7⟩ { zeroIMU9Event with timestamp := 7 } 42).2.1
      (by norm_num),
   (caer_setTimestamp_spec ⟨0, 7⟩ { zeroIMU9Event with timestamp := 7 } (-1)).2.2.1
      (by norm_num),
   (caer_setTimestamp_spec ⟨0, 7⟩ { zeroIMU9Event with timestamp := 7 } 42).2.2.2
      (by norm_num)⟩

/-- C9: for each of the nine IMU9 measurement channels and the temperature,
the getter applied immediately after the setter returns exactly the value that
was set (values are binary32 bit patterns moved through the fixed byte
order). -/
theorem caer_imu9_float_roundtrip (e : caer_imu9_event) (v : Nat) :
    caerIMU9EventGetAccelX (caerIMU9EventSetAccelX e v) = v ∧
    caerIMU9EventGetAccelY (caerIMU9EventSetAccelY e v) = v ∧
    caerIMU9EventGetAccelZ (caerIMU9EventSetAccelZ e v) = v ∧
    caerIMU9EventGetGyroX (caerIMU9EventSetGyroX e v) = v ∧
    caerIMU9EventGetGyroY (caerIMU9EventSetGyroY e v) = v ∧
    caerIMU9EventGetGyroZ (caerIMU9EventSetGyroZ e v) = v ∧
    caerIMU9EventGetCompX (caerIMU9EventSetCompX e v) = v ∧
    caerIMU9EventGetCompY (caerIMU9EventSetCompY e v) = v ∧
    caerIMU9EventGetCompZ (caerIMU9EventSetCompZ e v) = v ∧
    caerIMU9EventGetTemp (caerIMU9EventSetTemp e v) = v :=
  ⟨rfl, rfl, rfl, rfl, rfl, rfl, rfl, rfl, rfl, rfl⟩

/-- C8: GetEvent with an index in [0, capacity) on a well-formed packet (record
array length equal to the capacity) returns the record stored at that index;
GetEvent with an index outside [0, capacity) returns the null sentinel — for
both Polarity and IMU9 packets. -/
theorem caer_getEvent_spec (p : caer_polarity_event_packet)
    (p9 : caer_imu9_event_packet) (n : Int) :
    ((n < 0 ∨ p.packetHeader.eventCapacity ≤ n) →
      caerPolarityEventPacketGetEvent p n = none) ∧
    (0 ≤ n → n < p.packetHeader.eventCapacity →
      (p.events.length : Int) = p.packetHeader.eventCapacity →
      ∃ hn : n.toNat < p.events.length,
        caerPolarityEventPacketGetEvent p n = some (p.events.get ⟨n.toNat, hn⟩)) ∧
    ((n < 0 ∨ p9.packetHeader.eventCapacity ≤ n) →
      caerIMU9EventPacketGetEvent p9 n = none) ∧
    (0 ≤ n → n < p9.packetHeader.eventCapacity →
      (p9.events.length : Int) = p9.packetHeader.eventCapacity →
      ∃ hn : n.toNat < p9.events.length,
        caerIMU9EventPacketGetEvent p9 n = some (p9.events.get ⟨n.toNat, hn⟩)) := by
  refine ⟨?_, ?_, ?_, ?_⟩
  · intro h
    simp only [caerPolarityEventPacketGetEvent, caerEventPacketHeaderGetEventCapacity]
    rw [if_pos h]
  · intro h0 hlt hlen
    have hn : n.toNat < p.events.length := by omega
    refine ⟨hn, ?_⟩
    simp only [caerPolarityEventPacketGetEvent, caerEventPacketHeaderGetEventCapacity]
    rw [if_neg (by omega)]
    simp [List.getElem?_eq_getElem hn]
  · intro h
    simp only [caerIMU9EventPacketGetEvent, caerEventPacketHeaderGetEventCapacity]
    rw [if_pos h]
  · intro h0 hlt hlen
    have hn : n.toNat < p9.events.length := by omega
    refine ⟨hn, ?_⟩
    simp only [caerIMU9EventPacketGetEvent, caerEventPacketHeaderGetEventCapacity]
    rw [if_neg (by omega)]
    simp [List.getElem?_eq_getElem hn]

/-- C8 witness: on a capacity-2 polarity packet, index 5 returns the sentinel
and index 1 returns the stored record; same for an IMU9 packet. -/
theorem caer_getEvent_spec_witness :
    caerPolarityEventPacketGetEvent
      ⟨⟨0, 0, 2, 0⟩, [⟨3, 0⟩, ⟨5, 0⟩]⟩ 5 = none ∧
    caerPolarityEventPacketGetEvent
      ⟨⟨0, 0, 2, 0⟩, [⟨3, 0⟩, ⟨5, 0⟩]⟩ 1 = some ⟨5, 0⟩ ∧
    caerIMU9EventPacketGetEvent ⟨⟨0, 0, 1, 0⟩, [zeroIMU9Event]⟩ (-1) = none := by
  refine ⟨?_, ?_, ?_⟩
  · exact (caer_getEvent_spec ⟨⟨0, 0, 2, 0⟩, [⟨3, 0⟩, ⟨5, 0⟩]⟩
      ⟨⟨0, 0, 1, 0⟩, [zeroIMU9Event]⟩ 5).1 (by norm_num)
  · have h := (caer_getEvent_spec ⟨⟨0, 0, 2, 0⟩, [⟨3, 0⟩, ⟨5, 0⟩]⟩
      ⟨⟨0, 0, 1, 0⟩, [zeroIMU9Event]⟩ 1).2.1 (by norm_num) (by norm_num) (by norm_num)
    exact h.2
  · exact (caer_getEvent_spec ⟨⟨0, 0, 2, 0⟩, [⟨3, 0⟩, ⟨5, 0⟩]⟩
      ⟨⟨0, 0, 1, 0⟩, [zeroIMU9Event]⟩ (-1)).2.2.1 (by norm_num)

/-- Invariant carried through the validity protocol: the header's eventValid
equals the number of records whose validity bit is set, and is at most the
header's eventNumber. -/
def PolarityInv (p : caer_polarity_event_packet) : Prop :=
  p.packetHeader.eventValid = (countValidPolarity p.events : Int) ∧
  p.packetHeader.eventValid ≤ p.packetHeader.eventNumber

theorem countValid_replicate (n : Nat) :
    countValidPolarity (List.replicate n zeroPolarityEvent) = 0 := by
  rw [countValidPolarity, List.countP_eq_zero]
  intro a ha
  rw [List.eq_of_mem_replicate ha]
  decide

theorem applyPolarityPacketOp_preserves (p : caer_polarity_event_packet)
    (op : PolarityPacketOp) (h : PolarityInv p) :
    PolarityInv (applyPolarityPacketOp p op) := by
  obtain ⟨hcount, hle⟩ := h
  cases op with
  | doValidate i =>
    cases hg : p.events[i]? with
    | none => simpa [applyPolarityPacketOp, hg] using ⟨hcount, hle⟩
    | some e =>
      obtain ⟨hi, hei⟩ := List.getElem?_eq_some_iff.mp hg
      cases hv : caerPolarityEventIsValid e with
      | true =>
        simp only [applyPolarityPacketOp, hg, pol_validate_of_valid e _ hv]
        have hset := List.countP_set (fun e => caerPolarityEventIsValid e)
          p.events i e hi
        have hbd := List.boole_getElem_le_countP
          (fun e => caerPolarityEventIsValid e) p.events i hi
        rw [hei] at hset hbd
        simp only [hv, if_pos] at hset hbd
        constructor
        · rw [hcount]
          show (↑(countValidPolarity p.events) : Int) =
            ↑(countValidPolarity (p.events.set i e))
          simp only [countValidPolarity]
          rw [hset]
          congr 1
          omega
        · exact hle
      | false =>
        simp only [applyPolarityPacketOp, hg, pol_validate_of_invalid e _ hv]
        have hset := List.countP_set (fun e => caerPolarityEventIsValid e)
          p.events i { e with data := e.data ||| 1 } hi
        rw [hei] at hset
        simp only [hv, pol_isValid_after_set, if_neg, if_pos,
          Bool.false_eq_true, not_false_eq_true] at hset
        constructor
        · show p.packetHeader.eventValid + 1 =
            (countValidPolarity (p.events.set i { e with data := e.data ||| 1 }) : Int)
          rw [countValidPolarity, hset, hcount]
          push_cast [countValidPolarity]
          omega
        · show p.packetHeader.eventValid + 1 ≤ p.packetHeader.eventNumber + 1
          omega
  | doInvalidate i =>
    cases hg : p.events[i]? with
    | none => simpa [applyPolarityPacketOp, hg] using ⟨hcount, hle⟩
    | some e =>
      obtain ⟨hi, hei⟩ := List.getElem?_eq_some_iff.mp hg
      cases hv : caerPolarityEventIsValid e with
      | false =>
        simp only [applyPolarityPacketOp, hg, pol_invalidate_of_invalid e _ hv]
        have hset := List.countP_set (fun e => caerPolarityEventIsValid e)
          p.events i e hi
        have hbd := List.boole_getElem_le_countP
          (fun e => caerPolarityEventIsValid e) p.events i hi
        rw [hei] at hset hbd
        simp only [hv, Bool.false_eq_true, if_neg, not_false_eq_true] at hset hbd
        constructor
        · rw [hcount]
          show (↑(countValidPolarity p.events) : Int) =
            ↑(countValidPolarity (p.events.set i e))
          simp only [countValidPolarity]
          rw [hset]
          congr 1
        · exact hle
      | true =>
        simp only [applyPolarityPacketOp, hg, pol_invalidate_of_valid e _ hv]
        have hset := List.countP_set (fun e => caerPolarityEventIsValid e)
          p.events i
          { e with data := e.data &&& ((1 <<< VALID_MARK_SHIFT) ^^^ 0xFFFFFFFF) } hi
        have hbd := List.boole_getElem_le_countP
          (fun e => caerPolarityEventIsValid e) p.events i hi
        rw [hei] at hset hbd
        simp only [hv, pol_isValid_after_clear, if_pos, if_neg,
          Bool.false_eq_true, not_false_eq_true] at hset hbd
        constructor
        · show p.packetHeader.eventValid - 1 =
            (countValidPolarity (p.events.set i _) : Int)
          rw [countValidPolarity, hset, hcount]
          have h1 : 1 ≤ p.events.countP (fun e => caerPolarityEventIsValid e) := hbd
          push_cast [countValidPolarity]
          omega
        · show p.packetHeader.eventValid - 1 ≤ p.packetHeader.eventNumber
          omega

theorem runPolarityPacketOps_preserves (ops : List PolarityPacketOp) :
    ∀ p : caer_polarity_event_packet, PolarityInv p →
      PolarityInv (runPolarityPacketOps p ops) := by
  induction ops with
  | nil => intro p h; exact h
  | cons op ops ih =>
    intro p h
    rw [runPolarityPacketOps, List.foldl_cons]
    exact ih _ (applyPolarityPacketOp_preserves p op h)

/-- C4 counterexample: on a freshly allocated capacity-1 polarity packet, the
sequence validate 0, invalidate 0, validate 0 (each step respecting the
protocol's preconditions) drives eventNumber to 2, strictly above the
capacity 1, so the claimed invariant eventValid ≤ eventNumber ≤ eventCapacity
is not preserved by every validate/invalidate sequence. -/
theorem caer_counter_invariant_cex :
    (runPolarityPacketOps (caerPolarityEventPacketAllocate 1 0)
      [PolarityPacketOp.doValidate 0, PolarityPacketOp.doInvalidate 0,
        PolarityPacketOp.doValidate 0]).packetHeader.eventNumber = 2 ∧
    (runPolarityPacketOps (caerPolarityEventPacketAllocate 1 0)
      [PolarityPacketOp.doValidate 0, PolarityPacketOp.doInvalidate 0,
        PolarityPacketOp.doValidate 0]).packetHeader.eventCapacity = 1 ∧
    ¬ ((runPolarityPacketOps (caerPolarityEventPacketAllocate 1 0)
      [PolarityPacketOp.doValidate 0, PolarityPacketOp.doInvalidate 0,
        PolarityPacketOp.doValidate 0]).packetHeader.eventNumber ≤
      (runPolarityPacketOps (caerPolarityEventPacketAllocate 1 0)
        [PolarityPacketOp.doValidate 0, PolarityPacketOp.doInvalidate 0,
          PolarityPacketOp.doValidate 0]).packetHeader.eventCapacity) := by
  decide

/-- C4 (amended): starting from a freshly allocated polarity packet, every
sequence of validate/invalidate steps preserves
0 ≤ eventValid ≤ eventNumber; the upper bound by eventCapacity does not hold
in general (see the counterexample). -/
theorem caer_counter_invariant_amended (capacity tsOverflow : Nat)
    (ops : List PolarityPacketOp) :
    0 ≤ (runPolarityPacketOps (caerPolarityEventPacketAllocate capacity tsOverflow)
        ops).packetHeader.eventValid ∧
    (runPolarityPacketOps (caerPolarityEventPacketAllocate capacity tsOverflow)
        ops).packetHeader.eventValid ≤
      (runPolarityPacketOps (caerPolarityEventPacketAllocate capacity tsOverflow)
        ops).packetHeader.eventNumber := by
  have h0 : PolarityInv (caerPolarityEventPacketAllocate capacity tsOverflow) := by
    constructor
    · show (0 : Int) = _
      rw [show (caerPolarityEventPacketAllocate capacity tsOverflow).events =
        List.replicate capacity zeroPolarityEvent from rfl, countValid_replicate]
      rfl
    · show (0 : Int) ≤ 0
      exact le_refl 0
  have h := runPolarityPacketOps_preserves ops _ h0
  refine ⟨?_, h.2⟩
  rw [h.1]
  exact Int.natCast_nonneg _
